import Mathlib

/-!
Shallow embedding of the korangar UI windowing subsystem: the dimension
constraint model, the window builder, the window cache, the equipment
container and the prototype element rendering.  Screen coordinates, which
are f32 in the source, are embedded as rationals; the properties we verify
are exact arithmetic identities and clamping facts, which coincide over ℚ.

Definitions translated from the source keep the source's names.  Parts of
the repository that are only called from the sources at hand (the
constraint resolver, the window cache, the container state traversals) are
modelled from the specification and marked as such in their doc comments.
-/

namespace Korangar

/-- Screen size in pixels (f32 in the source, embedded as ℚ). -/
structure ScreenSize where
  width : ℚ
  height : ℚ
deriving DecidableEq

/-- Screen position in pixels (f32 in the source, embedded as ℚ). -/
structure ScreenPosition where
  left : ℚ
  top : ℚ
deriving DecidableEq

/-- Modelled from the spec: the tagged dimension-constraint variant set
{Absolute(px), Relative(percent of parent), RelativeToAvailable(percent),
Flexible, Super}; the definition itself is not among the sources, only its
uses in the window builder. -/
inductive Dimension where
  | absolute (px : ℚ)
  | relative (percent : ℚ)
  | relativeToAvailable (percent : ℚ)
  | flexible
  | super
deriving DecidableEq

/-- Modelled from the spec: primary constraint resolution.
Absolute(px) resolves to px * scaling_factor; Relative(p) to p/100 of the
parent's resolved value; RelativeToAvailable(p) to p/100 of the available
space; Super copies the parent's resolved value; Flexible with no siblings
(the window-resolution case used here) resolves to the full available
space. -/
def Dimension.resolve (c : Dimension) (availableSpace parentValue scalingFactor : ℚ) : ℚ :=
  match c with
  | .absolute px => px * scalingFactor
  | .relative percent => percent / 100 * parentValue
  | .relativeToAvailable percent => percent / 100 * availableSpace
  | .flexible => availableSpace
  | .super => parentValue

/-- Width/height constraint plus optional minimum/maximum per axis, as
destructured by WindowBuilder::build in builder.rs. -/
structure SizeBound where
  width : Dimension
  minimum_width : Option Dimension
  maximum_width : Option Dimension
  height : Dimension
  minimum_height : Option Dimension
  maximum_height : Option Dimension
deriving DecidableEq

/-- Modelled from the spec: minimum/maximum bounds override the axis's own
constraint result, applied after primary resolution.  The maximum cap is
applied first and the minimum floor second. -/
def applyBounds (raw : ℚ) (lo hi : Option ℚ) : ℚ :=
  let capped := match hi with
    | some h => min raw h
    | none => raw
  match lo with
  | some l => max capped l
  | none => capped

/-- Modelled from the spec: resolve one axis of a SizeBound — primary
constraint first, then the min/max clamp, never before. -/
def resolveBoundAxis (primary : Dimension) (minimum maximum : Option Dimension)
    (availableSpace parentValue scalingFactor : ℚ) : ℚ :=
  applyBounds (primary.resolve availableSpace parentValue scalingFactor)
    (minimum.map (fun d => d.resolve availableSpace parentValue scalingFactor))
    (maximum.map (fun d => d.resolve availableSpace parentValue scalingFactor))

/-- Modelled from the spec: resolve_window computes a fresh window size
with no cache against the available space (the builder passes the
available space as both the available space and the parent value), falling
back to a definite size even when an axis is Flexible.  The finalize_or
fallback of the source call site is folded in, following the spec policy
that Flexible with no siblings resolves to the full available space. -/
def SizeBound.resolve_window (sb : SizeBound) (availableSpace : ScreenSize) (scaling : ℚ) :
    ScreenSize where
  width := resolveBoundAxis sb.width sb.minimum_width sb.maximum_width
    availableSpace.width availableSpace.width scaling
  height := resolveBoundAxis sb.height sb.minimum_height sb.maximum_height
    availableSpace.height availableSpace.height scaling

/-- Modelled from the spec: validated_window_size re-clamps a previously
cached size against the min/max bounds and then against the current
available space, handling the case where the viewport shrank since the
size was cached (availability wins over the minimum bound). -/
def SizeBound.validated_window_size (sb : SizeBound) (cached : ScreenSize)
    (availableSpace : ScreenSize) (scaling : ℚ) : ScreenSize where
  width := min
    (applyBounds cached.width
      (sb.minimum_width.map (fun d => d.resolve availableSpace.width availableSpace.width scaling))
      (sb.maximum_width.map (fun d => d.resolve availableSpace.width availableSpace.width scaling)))
    availableSpace.width
  height := min
    (applyBounds cached.height
      (sb.minimum_height.map (fun d => d.resolve availableSpace.height availableSpace.height scaling))
      (sb.maximum_height.map (fun d => d.resolve availableSpace.height availableSpace.height scaling)))
    availableSpace.height

/-- Modelled from the spec: validated_position recomputes a cached
position so that the window stays fully on-screen within the available
space. -/
def SizeBound.validated_position (_sb : SizeBound) (position : ScreenPosition)
    (size availableSpace : ScreenSize) : ScreenPosition where
  left := min (max position.left 0) (availableSpace.width - size.width)
  top := min (max position.top 0) (availableSpace.height - size.height)

/-- Modelled from the spec: the window cache is a mapping from window
class to the last known (position, size), embedded as an association
list. -/
structure WindowCache where
  entries : List (String × ScreenPosition × ScreenSize)
deriving DecidableEq

/-- Modelled from the spec: get_window_state looks the class up and
returns the stored (position, size) when present. -/
def WindowCache.get_window_state (cache : WindowCache) (windowClass : String) :
    Option (ScreenPosition × ScreenSize) :=
  (cache.entries.find? (fun entry => entry.1 = windowClass)).map (fun entry => entry.2)

/-- Modelled from the spec: update_window_state records (position, size)
for the class, replacing any previous entry. -/
def WindowCache.update_window_state (cache : WindowCache) (windowClass : String)
    (position : ScreenPosition) (size : ScreenSize) : WindowCache where
  entries := (windowClass, position, size) :: cache.entries.filter (fun entry => entry.1 ≠ windowClass)

/-- Equipment slot positions, from equipment.rs / the network crate. -/
inductive EquipPosition where
  | headTop
  | headMiddle
  | headLower
  | armor
  | garment
  | shoes
  | leftHand
  | rightHand
  | ammo
deriving DecidableEq

/-- Modelled from the spec: display_name of an equipment slot (defined in
the network crate, not among the sources); the concrete strings are
irrelevant to the verified properties. -/
def EquipPosition.display_name : EquipPosition → String
  | .headTop => "Head Top"
  | .headMiddle => "Head Middle"
  | .headLower => "Head Lower"
  | .armor => "Armor"
  | .garment => "Garment"
  | .shoes => "Shoes"
  | .leftHand => "Left Hand"
  | .rightHand => "Right Hand"
  | .ammo => "Ammo"

/-- Inventory item; only the equipped position (and an identifier to tell
items apart) is relevant to the embedded code. -/
structure Item where
  id : ℕ
  equipped_position : EquipPosition
deriving DecidableEq

/-- Source of a dragged item, from equipment.rs. -/
inductive ItemSource where
  | equipment (position : EquipPosition)
deriving DecidableEq

/-- Element tree node.  The element variants appearing in the embedded
sources: chrome buttons and containers from builder.rs, labels and string
values from prototype.rs, item boxes and texts from equipment.rs.  Opaque
user-supplied elements are represented by an identifier; render-only
closure arguments of the source constructors (color selectors, highlight
predicates) are not observable by any verified property and are omitted. -/
inductive Elem where
  | closeButton
  | dragButton (title : String) (widthBound : Dimension)
  | container (sizeBound : Option SizeBound) (children : List Elem)
  | staticLabel (label : String)
  | stringValue (value : String)
  | itemBox (item : Option Item) (source : ItemSource)
  | text (content : String)
  | user (id : ℕ)

/-- Theme kind selector, from the interface crate. -/
inductive ThemeKind where
  | menu
  | main
  | game
deriving DecidableEq

/-- Background color selector: a closure in the source, observable here
only by identity. -/
structure ColorSelector where
  id : ℕ
deriving DecidableEq

/-- The Window record produced by WindowBuilder::build in builder.rs. -/
structure Window where
  window_class : Option String
  position : ScreenPosition
  size_bound : SizeBound
  size : ScreenSize
  elements : List Elem
  popup_element : Option Elem
  closable : Bool
  background_color : Option ColorSelector
  theme_kind : ThemeKind

/-- WindowBuilder::build from builder.rs, taking the destructured builder
fields as arguments.  Inserts the close button at the front when closable,
then the drag button at the front when titled (so the drag button ends up
first), wraps everything in one root Container with Relative(100%) width
and Flexible height inheriting the builder's min/max bounds as Super,
looks up cached geometry by class, and resolves the final size and
position. -/
def WindowBuilder.build (title : Option String) (closable : Bool)
    (windowClass : Option String) (size_bound : SizeBound) (elements : List Elem)
    (background_color : Option ColorSelector) (theme_kind : ThemeKind)
    (window_cache : WindowCache) (scaling : ℚ) (available_space : ScreenSize) : Window :=
  let elements := if closable then Elem.closeButton :: elements else elements
  let elements := match title with
    | some t =>
      let width_bound := match closable with
        | true => Dimension.relative 70
        | false => Dimension.flexible
      Elem.dragButton t width_bound :: elements
    | none => elements
  let container_size_bound : SizeBound :=
    { width := Dimension.relative 100
      minimum_width := size_bound.minimum_width.map (fun _ => Dimension.super)
      maximum_width := size_bound.maximum_width.map (fun _ => Dimension.super)
      height := Dimension.flexible
      minimum_height := size_bound.minimum_height.map (fun _ => Dimension.super)
      maximum_height := size_bound.maximum_height.map (fun _ => Dimension.super) }
  let elements := [Elem.container (some container_size_bound) elements]
  let cached := windowClass.bind (fun wc => window_cache.get_window_state wc)
  let size := match cached with
    | some (_, cachedSize) => size_bound.validated_window_size cachedSize available_space scaling
    | none => size_bound.resolve_window available_space scaling
  let position := match cached with
    | some (cachedPosition, _) =>
      size_bound.validated_position cachedPosition size available_space
    | none =>
      { left := (available_space.width - size.width) / 2
        top := (available_space.height - size.height) / 2 }
  { window_class := windowClass
    position := position
    size_bound := size_bound
    size := size
    elements := elements
    popup_element := none
    closable := closable
    background_color := background_color
    theme_kind := theme_kind }

/-- A type-state marker of the builder: each of the seven type parameters
of WindowBuilder is either NotSet or Set (SetWith is collapsed to Set; the
carried payload lives in the value-level fields). -/
inductive TypeFlag where
  | notSet
  | set
deriving DecidableEq

/-- The tuple of type-state parameters
(TITLE, CLOSABLE, CLASS, SIZE, ELEMENTS, BACKGROUND, THEME) of a
WindowBuilder value, from builder.rs. -/
structure BuilderTypeState where
  title : TypeFlag
  closable : TypeFlag
  classFlag : TypeFlag
  size : TypeFlag
  elements : TypeFlag
  background : TypeFlag
  theme : TypeFlag
deriving DecidableEq

/-- The configuration methods of the builder call surface. -/
inductive BuilderMethod where
  | withTitle
  | closableCall
  | withClass
  | withClassOption
  | withSizeBound
  | withElements
  | withBackgroundColor
  | withThemeKind
deriving DecidableEq

/-- One builder method applied at the type level: each impl block of
builder.rs demands specific parameters to be NotSet (and, for closable,
TITLE to be Set) and produces the successor type; a call outside its impl
block does not type-check, embedded here as none. -/
def methodStep (s : BuilderTypeState) : BuilderMethod → Option BuilderTypeState
  | .withTitle =>
    if s.title = .notSet then some { s with title := .set } else none
  | .closableCall =>
    if s.title = .set ∧ s.closable = .notSet then some { s with closable := .set } else none
  | .withClass =>
    if s.classFlag = .notSet then some { s with classFlag := .set } else none
  | .withClassOption =>
    if s.classFlag = .notSet then some { s with classFlag := .set } else none
  | .withSizeBound =>
    if s.size = .notSet then some { s with size := .set } else none
  | .withElements =>
    if s.elements = .notSet then some { s with elements := .set } else none
  | .withBackgroundColor =>
    if s.background = .notSet then some { s with background := .set } else none
  | .withThemeKind =>
    if s.theme = .notSet then some { s with theme := .set } else none

/-- A sequence of builder method calls applied in order; the whole
sequence is rejected as soon as one call is outside its impl block. -/
def runMethods (s : BuilderTypeState) : List BuilderMethod → Option BuilderTypeState
  | [] => some s
  | m :: ms =>
    match methodStep s m with
    | some s' => runMethods s' ms
    | none => none

/-- The type of WindowBuilder::new: every parameter NotSet. -/
def initialState : BuilderTypeState :=
  { title := .notSet, closable := .notSet, classFlag := .notSet, size := .notSet
    elements := .notSet, background := .notSet, theme := .notSet }

/-- The impl block of build in builder.rs demands
SIZE = SetWith SizeBound and ELEMENTS = SetWith (Vec ElementCell). -/
def buildAvailable (s : BuilderTypeState) : Prop :=
  s.size = .set ∧ s.elements = .set

/-- A remotely observed value with a change flag, as used by
EquipmentContainer (the Remote type itself is not among the sources;
modelled from the spec's change-detection polling description). -/
structure Remote (α : Type) where
  value : α
  changed : Bool

/-- Modelled from the spec: consume_changed reports whether the remote
value changed since last consumed and resets the flag. -/
def Remote.consume_changed {α : Type} (r : Remote α) : Bool × Remote α :=
  (r.changed, { r with changed := false })

/-- Change signal bubbling to the window, from the interface crate. -/
inductive ChangeEvent where
  | RESOLVE_WINDOW
  | RESOLVE_SELF
deriving DecidableEq

/-- The EquipmentContainer of equipment.rs: a remote item list, an
optional weak self-reference and the container state (embedded as the
parent back-reference plus the built slot elements; non-owning references
are embedded as identifiers). -/
structure EquipmentContainer where
  items : Remote (List Item)
  weak_self : Option ℕ
  parent_element : Option ℕ
  elements : List Elem

/-- The nine hard-coded slot positions of EquipmentContainer::new. -/
def slotPositions : List EquipPosition :=
  [.headTop, .headMiddle, .headLower, .armor, .garment, .shoes, .leftHand, .rightHand, .ammo]

/-- EquipmentContainer::new from equipment.rs: one child container per
slot holding the item box for the item equipped at that slot (if any) and
the slot's display name; weak_self starts unset. -/
def EquipmentContainer.new (items : Remote (List Item)) : EquipmentContainer where
  items := items
  weak_self := none
  parent_element := none
  elements := slotPositions.map (fun slot =>
    Elem.container none
      [Elem.itemBox (items.value.find? (fun item => item.equipped_position = slot))
        (ItemSource.equipment slot),
       Elem.text slot.display_name])

/-- EquipmentContainer::link_back from equipment.rs: stores the weak self
reference and forwards both references to the container state. -/
def EquipmentContainer.link_back (c : EquipmentContainer) (weakSelf : ℕ)
    (weakParent : Option ℕ) : EquipmentContainer :=
  { c with weak_self := some weakSelf, parent_element := weakParent }

/-- EquipmentContainer::update from equipment.rs: when the remote item
list changed, take the parent and self back-references, rebuild the whole
container in place with Self::new, re-link the taken references onto the
rebuilt subtree and signal RESOLVE_WINDOW; otherwise return no event.  The
source unwraps weak_self, which panics when link_back was never called;
the panic is embedded as none. -/
def EquipmentContainer.update (c : EquipmentContainer) :
    Option (EquipmentContainer × Option ChangeEvent) :=
  let (changed, items') := c.items.consume_changed
  if changed then
    let weakParent := c.parent_element
    match c.weak_self with
    | some weakSelf =>
      let rebuilt := (EquipmentContainer.new items').link_back weakSelf weakParent
      some (rebuilt, some ChangeEvent.RESOLVE_WINDOW)
    | none => none
  else
    some ({ c with items := items' }, none)

/-- Mouse input mode gating hover testing (defined in the input crate,
not among the sources; the variant set is modelled from the spec's "idle,
dragging an item, resizing" plus the variants matched in equipment.rs).
The moved-item payload carries the source slot and the item. -/
inductive MouseInputMode where
  | moveItem (source : ItemSource) (item : Item)
  | moveSkill
  | clickElement
  | dragElement
  | resizeWindow
  | rotateCamera
  | idle
deriving DecidableEq

/-- The wildcard arm of the match in EquipmentContainer::hovered_element:
true exactly for MoveItem(..) and None (embedded as idle). -/
def MouseInputMode.isMoveItemOrNone : MouseInputMode → Bool
  | .moveItem _ _ => true
  | .idle => true
  | _ => false

/-- Result of hover testing, from the interface crate: a hit child
element (embedded by identifier), the container itself, or a miss. -/
inductive HoverInformation where
  | element (id : ℕ)
  | hovered
  | missed
deriving DecidableEq

/-- A child as seen by hover testing: its resolved screen rectangle and
its identifier. -/
structure ChildRect where
  left : ℚ
  top : ℚ
  width : ℚ
  height : ℚ
  id : ℕ
deriving DecidableEq

/-- Whether the mouse position lies inside the child's resolved screen
rectangle. -/
def ChildRect.contains (r : ChildRect) (mouse : ScreenPosition) : Bool :=
  r.left ≤ mouse.left ∧ mouse.left ≤ r.left + r.width
    ∧ r.top ≤ mouse.top ∧ mouse.top ≤ r.top + r.height

/-- Modelled from the spec: ContainerState::hovered_element tests the
children in reverse visual order (topmost, last-added first) against
their resolved screen rectangles and returns the first hit; when no child
matches it returns the container itself if the container is interactive
(hoverSelf) and a miss otherwise. -/
def ContainerState.hovered_element (children : List ChildRect) (mouse : ScreenPosition)
    (hoverSelf : Bool) : HoverInformation :=
  match children.reverse.find? (fun child => child.contains mouse) with
  | some child => HoverInformation.element child.id
  | none => if hoverSelf then HoverInformation.hovered else HoverInformation.missed

/-- EquipmentContainer::hovered_element from equipment.rs: delegate to the
container state (non-interactive, hoverSelf = false) only under
MoveItem(..) or None mouse mode; under every other mode report a miss. -/
def EquipmentContainer.hovered_element (children : List ChildRect)
    (mouse : ScreenPosition) (mouseMode : MouseInputMode) : HoverInformation :=
  match mouseMode with
  | .moveItem _ _ => ContainerState.hovered_element children mouse false
  | .idle => ContainerState.hovered_element children mouse false
  | _ => HoverInformation.missed

/-- Index of the first focusable child, scanning in visual order. -/
def findFocusable : List Bool → Option ℕ
  | [] => none
  | focusable :: rest =>
    if focusable then some 0 else (findFocusable rest).map (fun j => j + 1)

/-- Modelled from the spec: ContainerState::focus_next over a container
whose children are leaves described by their focusable flags.  Entered
fresh (no caller) it yields the first focusable child; re-entered from the
child at index i it yields the first focusable child after i, wrapping
exactly once to the first focusable child overall; none when no child is
focusable. -/
def focus_next (children : List Bool) (caller : Option ℕ) : Option ℕ :=
  match caller with
  | none => findFocusable children
  | some i =>
    match findFocusable (children.drop (i + 1)) with
    | some j => some (i + 1 + j)
    | none => findFocusable children

/-- Iterated focus navigation: focusIter children k is the result of the
(k+1)-st focus_next request, each request passing the previous result as
the caller. -/
def focusIter (children : List Bool) : ℕ → Option ℕ
  | 0 => focus_next children none
  | k + 1 => focus_next children (focusIter children k)

/-- The PrototypeElement impl for Option T in prototype.rs, with the
impl for the payload type passed as a function: Some defers to the
payload's own to_element; None renders a Container of the field label and
the string value "none". -/
def optionToElement {α : Type} (toElement : α → String → Elem) :
    Option α → String → Elem
  | some value, display => toElement value display
  | none, display =>
    Elem.container none [Elem.staticLabel display, Elem.stringValue "none"]

theorem applyBounds_eq_self (v : ℚ) (lo hi : Option ℚ)
    (hlo : ∀ l, lo = some l → l ≤ v) (hhi : ∀ h, hi = some h → v ≤ h) :
    applyBounds v lo hi = v := by
  cases lo with
  | none =>
    cases hi with
    | none => rfl
    | some h => simpa [applyBounds] using hhi h rfl
  | some l =>
    cases hi with
    | none => simpa [applyBounds] using hlo l rfl
    | some h =>
      have h1 : v ≤ h := hhi h rfl
      have h2 : l ≤ v := hlo l rfl
      simp [applyBounds, min_eq_left h1, max_eq_left h2]

theorem applyBounds_mem (raw l h : ℚ) (hlh : l ≤ h) :
    l ≤ applyBounds raw (some l) (some h) ∧ applyBounds raw (some l) (some h) ≤ h := by
  constructor
  · simp [applyBounds]
  · simp only [applyBounds]
    exact max_le (le_trans (min_le_right raw h) le_rfl) hlh

/-- C8: an Absolute(px) constraint resolves to px * scaling_factor,
independently of the available space and of the parent's resolved value,
and a Relative(p) constraint resolves to p/100 of the parent's resolved
value. -/
theorem absolute_and_relative_resolution (px p s avail avail' parent parent' : ℚ) :
    (Dimension.absolute px).resolve avail parent s = px * s
    ∧ (Dimension.absolute px).resolve avail' parent' s
        = (Dimension.absolute px).resolve avail parent s
    ∧ (Dimension.relative p).resolve avail parent s = p / 100 * parent :=
  ⟨rfl, rfl, rfl⟩

/-- C10: the PrototypeElement impl for Option T produces the payload's own
element when the value is Some, and when the value is None a Container
holding the field label and the string value "none" — absence is rendered,
never an error or an empty element. -/
theorem option_to_element_renders_absence {α : Type} (toElement : α → String → Elem)
    (value : α) (display : String) :
    optionToElement toElement (some value) display = toElement value display
    ∧ optionToElement toElement none display
        = Elem.container none [Elem.staticLabel display, Elem.stringValue "none"] :=
  ⟨rfl, rfl⟩

/-- C1: building a window with no class never consults the cache — the
resulting window is identical for any two cache contents, its size is
resolved fresh by resolve_window against the available space, and its
position is the centered default (available_space - size) / 2. -/
theorem build_without_class_ignores_cache (title : Option String) (closable : Bool)
    (sb : SizeBound) (userElements : List Elem) (bg : Option ColorSelector)
    (tk : ThemeKind) (cache cache' : WindowCache) (scaling : ℚ) (avail : ScreenSize) :
    (WindowBuilder.build title closable none sb userElements bg tk cache scaling avail).size
      = sb.resolve_window avail scaling
    ∧ (WindowBuilder.build title closable none sb userElements bg tk cache scaling avail).position
      = { left := (avail.width - (sb.resolve_window avail scaling).width) / 2
          top := (avail.height - (sb.resolve_window avail scaling).height) / 2 }
    ∧ WindowBuilder.build title closable none sb userElements bg tk cache scaling avail
      = WindowBuilder.build title closable none sb userElements bg tk cache' scaling avail :=
  ⟨rfl, rfl, rfl⟩

/-- C3: build inserts the synthesized chrome at the front of the element
list — close button first when closable, then the drag handle when titled,
so the drag handle precedes the close button which precedes all
user-supplied elements — and wraps the whole list in a single root
Container whose size bound has Relative(100) width and Flexible height. -/
theorem build_chrome_order (title : Option String) (closable : Bool)
    (windowClass : Option String) (sb : SizeBound) (userElements : List Elem)
    (bg : Option ColorSelector) (tk : ThemeKind) (cache : WindowCache) (scaling : ℚ)
    (avail : ScreenSize) :
    ∃ csb : SizeBound,
      (WindowBuilder.build title closable windowClass sb userElements bg tk cache
          scaling avail).elements
        = [Elem.container (some csb)
            ((match title with
              | some t => [Elem.dragButton t
                  (if closable then Dimension.relative 70 else Dimension.flexible)]
              | none => ([] : List Elem))
              ++ (if closable then [Elem.closeButton] else []) ++ userElements)]
      ∧ csb.width = Dimension.relative 100
      ∧ csb.height = Dimension.flexible := by
  refine ⟨{ width := Dimension.relative 100
            minimum_width := sb.minimum_width.map (fun _ => Dimension.super)
            maximum_width := sb.maximum_width.map (fun _ => Dimension.super)
            height := Dimension.flexible
            minimum_height := sb.minimum_height.map (fun _ => Dimension.super)
            maximum_height := sb.maximum_height.map (fun _ => Dimension.super) }, ?_, rfl, rfl⟩
  cases title <;> cases closable <;> rfl

theorem get_after_update (cache : WindowCache) (windowClass : String)
    (P : ScreenPosition) (S : ScreenSize) :
    (cache.update_window_state windowClass P S).get_window_state windowClass = some (P, S) := by
  simp [WindowCache.get_window_state, WindowCache.update_window_state, List.find?_cons]

/-- C2: updating the cache for a class and rebuilding a window of that
class over the same available space yields size validated_window_size S
and position validated_position P; in particular, when the available space
and the min/max bounds still accommodate S and position P keeps the window
on-screen, the reopened window comes back with exactly position P and
size S. -/
theorem cache_round_trip (title : Option String) (closable : Bool) (windowClass : String)
    (P : ScreenPosition) (S : ScreenSize) (sb : SizeBound) (userElements : List Elem)
    (bg : Option ColorSelector) (tk : ThemeKind) (cache : WindowCache) (scaling : ℚ)
    (avail : ScreenSize) :
    (WindowBuilder.build title closable (some windowClass) sb userElements bg tk
        (cache.update_window_state windowClass P S) scaling avail).size
      = sb.validated_window_size S avail scaling
    ∧ (WindowBuilder.build title closable (some windowClass) sb userElements bg tk
        (cache.update_window_state windowClass P S) scaling avail).position
      = sb.validated_position P (sb.validated_window_size S avail scaling) avail
    ∧ (((∀ d, sb.minimum_width = some d → d.resolve avail.width avail.width scaling ≤ S.width)
        ∧ (∀ d, sb.maximum_width = some d → S.width ≤ d.resolve avail.width avail.width scaling)
        ∧ (∀ d, sb.minimum_height = some d →
            d.resolve avail.height avail.height scaling ≤ S.height)
        ∧ (∀ d, sb.maximum_height = some d →
            S.height ≤ d.resolve avail.height avail.height scaling)
        ∧ S.width ≤ avail.width ∧ S.height ≤ avail.height
        ∧ 0 ≤ P.left ∧ P.left + S.width ≤ avail.width
        ∧ 0 ≤ P.top ∧ P.top + S.height ≤ avail.height) →
      (WindowBuilder.build title closable (some windowClass) sb userElements bg tk
          (cache.update_window_state windowClass P S) scaling avail).size = S
      ∧ (WindowBuilder.build title closable (some windowClass) sb userElements bg tk
          (cache.update_window_state windowClass P S) scaling avail).position = P) := by
  have hget : ((some windowClass).bind (fun wc =>
      (cache.update_window_state windowClass P S).get_window_state wc)) = some (P, S) := by
    simpa using get_after_update cache windowClass P S
  have hsize : (WindowBuilder.build title closable (some windowClass) sb userElements bg tk
      (cache.update_window_state windowClass P S) scaling avail).size
      = sb.validated_window_size S avail scaling := by
    simp only [WindowBuilder.build, hget]
  have hpos : (WindowBuilder.build title closable (some windowClass) sb userElements bg tk
      (cache.update_window_state windowClass P S) scaling avail).position
      = sb.validated_position P (sb.validated_window_size S avail scaling) avail := by
    simp only [WindowBuilder.build, hget]
  refine ⟨hsize, hpos, ?_⟩
  rintro ⟨hminw, hmaxw, hminh, hmaxh, hw, hh, hpl, hplw, hpt, hpth⟩
  have hvw : sb.validated_window_size S avail scaling = S := by
    have hboundw : applyBounds S.width
        (sb.minimum_width.map (fun d => d.resolve avail.width avail.width scaling))
        (sb.maximum_width.map (fun d => d.resolve avail.width avail.width scaling))
        = S.width := by
      apply applyBounds_eq_self
      · intro l hl
        rcases Option.map_eq_some'.mp hl with ⟨d, hd, hdl⟩
        exact hdl ▸ hminw d hd
      · intro h hmem
        rcases Option.map_eq_some'.mp hmem with ⟨d, hd, hdh⟩
        exact hdh ▸ hmaxw d hd
    have hboundh : applyBounds S.height
        (sb.minimum_height.map (fun d => d.resolve avail.height avail.height scaling))
        (sb.maximum_height.map (fun d => d.resolve avail.height avail.height scaling))
        = S.height := by
      apply applyBounds_eq_self
      · intro l hl
        rcases Option.map_eq_some'.mp hl with ⟨d, hd, hdl⟩
        exact hdl ▸ hminh d hd
      · intro h hmem
        rcases Option.map_eq_some'.mp hmem with ⟨d, hd, hdh⟩
        exact hdh ▸ hmaxh d hd
    simp [SizeBound.validated_window_size, hboundw, hboundh, min_eq_left hw, min_eq_left hh]
  have hvp : sb.validated_position P S avail = P := by
    have h1 : max P.left 0 = P.left := max_eq_left hpl
    have h2 : max P.top 0 = P.top := max_eq_left hpt
    have h3 : P.left ≤ avail.width - S.width := by linarith
    have h4 : P.top ≤ avail.height - S.height := by linarith
    simp [SizeBound.validated_position, h1, h2, min_eq_left h3, min_eq_left h4]
  exact ⟨by rw [hsize, hvw], by rw [hpos, hvw, hvp]⟩

/-- Witness for C2, the spec's reopening scenario: class "inventory",
bounds 200..300 on both axes at scaling 1, available space 800×600, cached
position (100,100) and size (250,250) come back exactly. -/
theorem cache_round_trip_witness :
    (WindowBuilder.build (some "Inventory") true "inventory"
        { width := Dimension.relativeToAvailable 30
          minimum_width := some (Dimension.absolute 200)
          maximum_width := some (Dimension.absolute 300)
          height := Dimension.flexible
          minimum_height := some (Dimension.absolute 200)
          maximum_height := some (Dimension.absolute 300) }
        [Elem.user 0] none ThemeKind.main
        (WindowCache.update_window_state { entries := [] } "inventory"
          { left := 100, top := 100 } { width := 250, height := 250 })
        1 { width := 800, height := 600 }).size
      = { width := 250, height := 250 }
    ∧ (WindowBuilder.build (some "Inventory") true "inventory"
        { width := Dimension.relativeToAvailable 30
          minimum_width := some (Dimension.absolute 200)
          maximum_width := some (Dimension.absolute 300)
          height := Dimension.flexible
          minimum_height := some (Dimension.absolute 200)
          maximum_height := some (Dimension.absolute 300) }
        [Elem.user 0] none ThemeKind.main
        (WindowCache.update_window_state { entries := [] } "inventory"
          { left := 100, top := 100 } { width := 250, height := 250 })
        1 { width := 800, height := 600 }).position
      = { left := 100, top := 100 } := by
  have h := cache_round_trip (some "Inventory") true "inventory"
    { left := 100, top := 100 } { width := 250, height := 250 }
    { width := Dimension.relativeToAvailable 30
      minimum_width := some (Dimension.absolute 200)
      maximum_width := some (Dimension.absolute 300)
      height := Dimension.flexible
      minimum_height := some (Dimension.absolute 200)
      maximum_height := some (Dimension.absolute 300) }
    [Elem.user 0] none ThemeKind.main { entries := [] } 1 { width := 800, height := 600 }
  refine h.2.2 ⟨?_, ?_, ?_, ?_, by norm_num, by norm_num, by norm_num, by norm_num,
    by norm_num, by norm_num⟩
  · rintro d ⟨rfl⟩
    norm_num [Dimension.resolve]
  · rintro d ⟨rfl⟩
    norm_num [Dimension.resolve]
  · rintro d ⟨rfl⟩
    norm_num [Dimension.resolve]
  · rintro d ⟨rfl⟩
    norm_num [Dimension.resolve]

/-- C7: with both bounds set, in order (minimum ≤ maximum, the invariant
the spec demands at resolution time), minimum positive and maximum below
the available space, the resolved axis always lies within
[minimum, maximum] whatever the primary constraint produces, and the
clamp is applied to the primary resolution result, after it and never
before. -/
theorem size_bound_clamp (primary minD maxD : Dimension) (avail parent scaling : ℚ)
    (_hpos : 0 < minD.resolve avail parent scaling)
    (_hmax : maxD.resolve avail parent scaling < avail)
    (hle : minD.resolve avail parent scaling ≤ maxD.resolve avail parent scaling) :
    (minD.resolve avail parent scaling
        ≤ resolveBoundAxis primary (some minD) (some maxD) avail parent scaling
      ∧ resolveBoundAxis primary (some minD) (some maxD) avail parent scaling
        ≤ maxD.resolve avail parent scaling)
    ∧ resolveBoundAxis primary (some minD) (some maxD) avail parent scaling
      = applyBounds (primary.resolve avail parent scaling)
          (some (minD.resolve avail parent scaling))
          (some (maxD.resolve avail parent scaling)) :=
  ⟨applyBounds_mem (primary.resolve avail parent scaling)
    (minD.resolve avail parent scaling) (maxD.resolve avail parent scaling) hle, rfl⟩

/-- Witness for C7: primary Absolute(500) at scaling 1 with bounds
Absolute(200)..Absolute(300) in available space 800 resolves to 300,
inside [200, 300]. -/
theorem size_bound_clamp_witness :
    ((200 : ℚ) ≤ resolveBoundAxis (Dimension.absolute 500) (some (Dimension.absolute 200))
        (some (Dimension.absolute 300)) 800 800 1
      ∧ resolveBoundAxis (Dimension.absolute 500) (some (Dimension.absolute 200))
        (some (Dimension.absolute 300)) 800 800 1 ≤ (300 : ℚ))
    ∧ resolveBoundAxis (Dimension.absolute 500) (some (Dimension.absolute 200))
        (some (Dimension.absolute 300)) 800 800 1
      = applyBounds ((Dimension.absolute 500).resolve 800 800 1)
          (some ((Dimension.absolute 200).resolve 800 800 1))
          (some ((Dimension.absolute 300).resolve 800 800 1)) := by
  have h := size_bound_clamp (Dimension.absolute 500) (Dimension.absolute 200)
    (Dimension.absolute 300) 800 800 1 (by norm_num [Dimension.resolve])
    (by norm_num [Dimension.resolve]) (by norm_num [Dimension.resolve])
  constructor
  · constructor
    · have := h.1.1
      norm_num [Dimension.resolve] at this ⊢
      exact this
    · have := h.1.2
      norm_num [Dimension.resolve] at this ⊢
      exact this
  · exact h.2

/-- C6: EquipmentContainer::hovered_element misses whenever the mouse mode
is neither MoveItem nor None; under exactly those two modes it delegates
to its children as a non-interactive container — yielding the topmost
(last in visual order) child whose rectangle contains the position, or a
miss when no child's rectangle contains it. -/
theorem equipment_hover_gating (children : List ChildRect) (mouse : ScreenPosition)
    (mouseMode : MouseInputMode) :
    (mouseMode.isMoveItemOrNone = false →
      EquipmentContainer.hovered_element children mouse mouseMode = HoverInformation.missed)
    ∧ (mouseMode.isMoveItemOrNone = true →
      EquipmentContainer.hovered_element children mouse mouseMode
        = ContainerState.hovered_element children mouse false
      ∧ ((∀ child ∈ children, child.contains mouse = false) →
        EquipmentContainer.hovered_element children mouse mouseMode = HoverInformation.missed)
      ∧ (∀ child, children.reverse.find? (fun c => c.contains mouse) = some child →
        EquipmentContainer.hovered_element children mouse mouseMode
          = HoverInformation.element child.id)) := by
  constructor
  · intro hmode
    cases mouseMode <;> simp_all [MouseInputMode.isMoveItemOrNone,
      EquipmentContainer.hovered_element]
  · intro hmode
    have hdeleg : EquipmentContainer.hovered_element children mouse mouseMode
        = ContainerState.hovered_element children mouse false := by
      cases mouseMode <;> simp_all [MouseInputMode.isMoveItemOrNone,
        EquipmentContainer.hovered_element]
    refine ⟨hdeleg, ?_, ?_⟩
    · intro hnone
      have hfind : children.reverse.find? (fun c => c.contains mouse) = none := by
        rw [List.find?_eq_none]
        intro child hchild
        simp [hnone child (List.mem_reverse.mp hchild)]
      rw [hdeleg]
      simp [ContainerState.hovered_element, hfind]
    · intro child hchild
      rw [hdeleg]
      simp [ContainerState.hovered_element, hchild]

/-- Witness for C6: with one child rectangle under the mouse, the resize
mode misses while the idle mode hits that child. -/
theorem equipment_hover_gating_witness :
    EquipmentContainer.hovered_element
      [{ left := 0, top := 0, width := 10, height := 10, id := 4 }]
      { left := 5, top := 5 } MouseInputMode.resizeWindow = HoverInformation.missed
    ∧ EquipmentContainer.hovered_element
      [{ left := 0, top := 0, width := 10, height := 10, id := 4 }]
      { left := 5, top := 5 } MouseInputMode.idle = HoverInformation.element 4 := by
  constructor
  · exact (equipment_hover_gating
      [{ left := 0, top := 0, width := 10, height := 10, id := 4 }]
      { left := 5, top := 5 } MouseInputMode.resizeWindow).1 rfl
  · exact ((equipment_hover_gating
      [{ left := 0, top := 0, width := 10, height := 10, id := 4 }]
      { left := 5, top := 5 } MouseInputMode.idle).2 rfl).2.2
      { left := 0, top := 0, width := 10, height := 10, id := 4 } (by norm_num [ChildRect.contains])

theorem findFocusable_replicate_true (n : ℕ) (hn : 0 < n) :
    findFocusable (List.replicate n true) = some 0 := by
  cases n with
  | zero => exact absurd hn (by simp)
  | succ m => simp [List.replicate_succ, findFocusable]

theorem findFocusable_all_false (children : List Bool)
    (hempty : ∀ b ∈ children, b = false) : findFocusable children = none := by
  induction children with
  | nil => rfl
  | cons b rest ih =>
    have hb : b = false := hempty b (List.mem_cons_self b rest)
    have hrest : findFocusable rest = none := ih (fun x hx => hempty x (List.mem_cons_of_mem b hx))
    simp [findFocusable, hb, hrest]

theorem focus_next_replicate (n i : ℕ) (hn : 0 < n) :
    focus_next (List.replicate n true) (some i)
      = if i + 1 < n then some (i + 1) else some 0 := by
  by_cases hlt : i + 1 < n
  · have hfound : findFocusable (List.replicate (n - (i + 1)) true) = some 0 :=
      findFocusable_replicate_true (n - (i + 1)) (by omega)
    simp [focus_next, hfound, hlt]
  · have hzero : n - (i + 1) = 0 := by omega
    have hfound : findFocusable (List.replicate (n - (i + 1)) true) = none := by
      rw [hzero]
      rfl
    simp [focus_next, hfound, hlt, findFocusable_replicate_true n hn]

theorem focusIter_replicate (n k : ℕ) (hk : k < n) :
    focusIter (List.replicate n true) k = some k := by
  induction k with
  | zero =>
    simp [focusIter, focus_next, findFocusable_replicate_true n (by omega)]
  | succ m ih =>
    have hm : m < n := by omega
    rw [focusIter, ih hm, focus_next_replicate n m (by omega)]
    simp [hk]

/-- C9: over a container of n focusable leaf children (n > 0), the k-th
focus_next request (no caller first, then always passing the previous
result) yields child k for every k < n, and the (n+1)-st request wraps
back to the first child — each child is visited exactly once before the
single wrap; and over any child list with no focusable element, focus_next
yields none for every caller. -/
theorem focus_navigation_cycle (n : ℕ) (hn : 0 < n) (emptyChildren : List Bool)
    (caller : Option ℕ) (hempty : ∀ b ∈ emptyChildren, b = false) :
    (∀ k, k < n → focusIter (List.replicate n true) k = some k)
    ∧ focusIter (List.replicate n true) n = some 0
    ∧ focus_next emptyChildren caller = none := by
  refine ⟨fun k hk => focusIter_replicate n k hk, ?_, ?_⟩
  · cases n with
    | zero => exact absurd hn (by simp)
    | succ m =>
      rw [focusIter, focusIter_replicate (m + 1) m (by omega),
        focus_next_replicate (m + 1) m (by omega)]
      simp
  · cases caller with
    | none => simpa [focus_next] using findFocusable_all_false emptyChildren hempty
    | some i =>
      have hall : findFocusable emptyChildren = none := findFocusable_all_false emptyChildren hempty
      have hdropall : findFocusable (emptyChildren.drop (i + 1)) = none :=
        findFocusable_all_false _ (fun b hb => hempty b (List.mem_of_mem_drop hb))
      simp [focus_next, hall, hdropall]

/-- Witness for C9: three focusable children are visited as 0, 1, 2 and
the fourth request wraps to 0; a two-child container with no focusable
child yields none. -/
theorem focus_navigation_cycle_witness :
    focusIter (List.replicate 3 true) 0 = some 0
    ∧ focusIter (List.replicate 3 true) 1 = some 1
    ∧ focusIter (List.replicate 3 true) 2 = some 2
    ∧ focusIter (List.replicate 3 true) 3 = some 0
    ∧ focus_next [false, false] (some 0) = none := by
  have h := focus_navigation_cycle 3 (by norm_num) [false, false] (some 0) (by decide)
  exact ⟨h.1 0 (by norm_num), h.1 1 (by norm_num), h.1 2 (by norm_num), h.2.1, h.2.2⟩

/-- C5: when the remote item list changed, EquipmentContainer::update
rebuilds the subtree in place from the current items, re-acquires the
previously held self and parent back-references onto the rebuilt subtree
before returning, and signals RESOLVE_WINDOW; when it did not change, the
container is returned unchanged with no signal.  (The weak_self is assumed
present, i.e. link_back has run, as the source's unwrap demands.) -/
theorem equipment_update_rebuild (c : EquipmentContainer) (w : ℕ)
    (hw : c.weak_self = some w) :
    (c.items.changed = true →
      c.update = some
        ((EquipmentContainer.new { value := c.items.value, changed := false }).link_back
            w c.parent_element,
          some ChangeEvent.RESOLVE_WINDOW)
      ∧ ((EquipmentContainer.new { value := c.items.value, changed := false }).link_back
          w c.parent_element).weak_self = c.weak_self
      ∧ ((EquipmentContainer.new { value := c.items.value, changed := false }).link_back
          w c.parent_element).parent_element = c.parent_element)
    ∧ (c.items.changed = false → c.update = some (c, none)) := by
  obtain ⟨⟨v, ch⟩, ws, pe, els⟩ := c
  simp only at hw
  subst hw
  constructor
  · intro hch
    simp only at hch
    subst hch
    refine ⟨rfl, ?_, rfl⟩
    simp [EquipmentContainer.link_back, EquipmentContainer.new]
  · intro hch
    simp only at hch
    subst hch
    rfl

/-- Witness for C5: a linked container over a changed one-item list is
rebuilt with its back-references restored and signals RESOLVE_WINDOW. -/
theorem equipment_update_rebuild_witness :
    EquipmentContainer.update
      { items := { value := [{ id := 1, equipped_position := EquipPosition.armor }], changed := true }
        weak_self := some 7
        parent_element := some 3
        elements := [] }
      = some
        ((EquipmentContainer.new
            { value := [{ id := 1, equipped_position := EquipPosition.armor }], changed := false }).link_back
          7 (some 3),
          some ChangeEvent.RESOLVE_WINDOW)
    ∧ ((EquipmentContainer.new
          { value := [{ id := 1, equipped_position := EquipPosition.armor }], changed := false }).link_back
        7 (some 3)).weak_self = some 7 := by
  have h := (equipment_update_rebuild
    { items := { value := [{ id := 1, equipped_position := EquipPosition.armor }], changed := true }
      weak_self := some 7
      parent_element := some 3
      elements := [] } 7 rfl).1 rfl
  exact ⟨h.1, h.2.1⟩

theorem methodStep_flags (s s1 : BuilderTypeState) (m : BuilderMethod)
    (hstep : methodStep s m = some s1) :
    (s1.title = .set ↔ (s.title = .set ∨ m = .withTitle))
    ∧ (s1.closable = .set ↔ (s.closable = .set ∨ m = .closableCall))
    ∧ (s1.size = .set ↔ (s.size = .set ∨ m = .withSizeBound))
    ∧ (s1.elements = .set ↔ (s.elements = .set ∨ m = .withElements)) := by
  cases m <;> simp only [methodStep] at hstep <;> split at hstep <;>
    first
      | (rw [Option.some.injEq] at hstep
         subst hstep
         simp)
      | exact absurd hstep (by simp)

theorem methodStep_closable_inv (s s1 : BuilderTypeState) (m : BuilderMethod)
    (hinv : s.closable = .set → s.title = .set)
    (hstep : methodStep s m = some s1) :
    s1.closable = .set → s1.title = .set := by
  cases m <;> simp only [methodStep] at hstep <;> split at hstep <;>
    rename_i hcond <;>
    first
      | (rw [Option.some.injEq] at hstep
         subst hstep
         intro hc
         first
           | rfl
           | exact hinv hc
           | exact hcond.1)
      | exact absurd hstep (by simp)

theorem flag_or_mem_iff (p : Prop) (m target : BuilderMethod) (ms : List BuilderMethod) :
    ((p ∨ m = target) ∨ target ∈ ms) ↔ (p ∨ target ∈ m :: ms) := by
  rw [List.mem_cons]
  constructor
  · rintro ((h | rfl) | h)
    · exact Or.inl h
    · exact Or.inr (Or.inl rfl)
    · exact Or.inr (Or.inr h)
  · rintro (h | rfl | h)
    · exact Or.inl (Or.inl h)
    · exact Or.inl (Or.inr rfl)
    · exact Or.inr h

theorem runMethods_set_iff (ms : List BuilderMethod) (s s' : BuilderTypeState)
    (h : runMethods s ms = some s') :
    (s'.title = .set ↔ (s.title = .set ∨ BuilderMethod.withTitle ∈ ms))
    ∧ (s'.closable = .set ↔ (s.closable = .set ∨ BuilderMethod.closableCall ∈ ms))
    ∧ (s'.size = .set ↔ (s.size = .set ∨ BuilderMethod.withSizeBound ∈ ms))
    ∧ (s'.elements = .set ↔ (s.elements = .set ∨ BuilderMethod.withElements ∈ ms)) := by
  induction ms generalizing s with
  | nil =>
    simp only [runMethods, Option.some.injEq] at h
    subst h
    simp
  | cons m ms ih =>
    simp only [runMethods] at h
    cases hstep : methodStep s m with
    | none => rw [hstep] at h; exact absurd h (by simp)
    | some s1 =>
      rw [hstep] at h
      have h1 := methodStep_flags s s1 m hstep
      have h2 := ih s1 h
      refine ⟨?_, ?_, ?_, ?_⟩
      · rw [h2.1, h1.1]
        exact flag_or_mem_iff _ m _ ms
      · rw [h2.2.1, h1.2.1]
        exact flag_or_mem_iff _ m _ ms
      · rw [h2.2.2.1, h1.2.2.1]
        exact flag_or_mem_iff _ m _ ms
      · rw [h2.2.2.2, h1.2.2.2]
        exact flag_or_mem_iff _ m _ ms

theorem runMethods_closable_inv (ms : List BuilderMethod) (s s' : BuilderTypeState)
    (hinv : s.closable = .set → s.title = .set)
    (h : runMethods s ms = some s') :
    s'.closable = .set → s'.title = .set := by
  induction ms generalizing s with
  | nil =>
    simp only [runMethods, Option.some.injEq] at h
    subst h
    exact hinv
  | cons m ms ih =>
    simp only [runMethods] at h
    cases hstep : methodStep s m with
    | none => rw [hstep] at h; exact absurd h (by simp)
    | some s1 =>
      rw [hstep] at h
      exact ih s1 (methodStep_closable_inv s s1 m hinv hstep) h

/-- C4: over every sequence of builder calls that type-checks from
WindowBuilder::new, build is available exactly when both mandatory calls
(with_size_bound and with_elements) occurred; the closable call is
accepted at a state exactly when a title was supplied earlier and closable
was not yet called, and any reachable closable builder is titled — every
other sequence is rejected by the type state itself (runMethods yields
none), leaving no runtime failure path. -/
theorem typestate_builder_safety (ms : List BuilderMethod) (s : BuilderTypeState)
    (h : runMethods initialState ms = some s) :
    (buildAvailable s ↔ (BuilderMethod.withSizeBound ∈ ms ∧ BuilderMethod.withElements ∈ ms))
    ∧ ((methodStep s .closableCall).isSome
        ↔ (BuilderMethod.withTitle ∈ ms ∧ BuilderMethod.closableCall ∉ ms))
    ∧ (s.closable = .set → s.title = .set ∧ BuilderMethod.withTitle ∈ ms) := by
  have hflags := runMethods_set_iff ms initialState s h
  have hinit_title : initialState.title = .set ↔ False := by simp [initialState]
  have hinit_closable : initialState.closable = .set ↔ False := by simp [initialState]
  have hinit_size : initialState.size = .set ↔ False := by simp [initialState]
  have hinit_elements : initialState.elements = .set ↔ False := by simp [initialState]
  have htitle : s.title = .set ↔ BuilderMethod.withTitle ∈ ms := by
    rw [hflags.1, hinit_title, false_or]
  have hclosable : s.closable = .set ↔ BuilderMethod.closableCall ∈ ms := by
    rw [hflags.2.1, hinit_closable, false_or]
  have hsize : s.size = .set ↔ BuilderMethod.withSizeBound ∈ ms := by
    rw [hflags.2.2.1, hinit_size, false_or]
  have helements : s.elements = .set ↔ BuilderMethod.withElements ∈ ms := by
    rw [hflags.2.2.2, hinit_elements, false_or]
  have hnotset_title : s.title = .notSet ↔ ¬s.title = .set := by
    cases htf : s.title <;> simp
  have hnotset_closable : s.closable = .notSet ↔ ¬s.closable = .set := by
    cases htf : s.closable <;> simp
  refine ⟨?_, ?_, ?_⟩
  · rw [buildAvailable, hsize, helements]
  · constructor
    · intro hsome
      simp only [methodStep] at hsome
      split at hsome
      · rename_i hcond
        exact ⟨htitle.mp hcond.1, fun hmem =>
          (hnotset_closable.mp hcond.2) (hclosable.mpr hmem)⟩
      · exact absurd hsome (by simp)
    · rintro ⟨htmem, hcmem⟩
      simp only [methodStep]
      rw [if_pos ⟨htitle.mpr htmem, hnotset_closable.mpr (fun hc => hcmem (hclosable.mp hc))⟩]
      simp
  · intro hc
    have ht := runMethods_closable_inv ms initialState s (by simp [initialState]) h hc
    exact ⟨ht, htitle.mp ht⟩

/-- Witness for C4: the sequence with_title, closable, with_size_bound,
with_elements reaches the state with title, closable, size and elements
set, where build is available and a second closable call is rejected. -/
theorem typestate_builder_safety_witness :
    (buildAvailable
        { title := .set, closable := .set, classFlag := .notSet, size := .set
          elements := .set, background := .notSet, theme := .notSet }
      ↔ (BuilderMethod.withSizeBound
          ∈ [BuilderMethod.withTitle, BuilderMethod.closableCall,
            BuilderMethod.withSizeBound, BuilderMethod.withElements]
        ∧ BuilderMethod.withElements
          ∈ [BuilderMethod.withTitle, BuilderMethod.closableCall,
            BuilderMethod.withSizeBound, BuilderMethod.withElements]))
    ∧ ((methodStep
          { title := .set, closable := .set, classFlag := .notSet, size := .set
            elements := .set, background := .notSet, theme := .notSet }
          .closableCall).isSome
      ↔ (BuilderMethod.withTitle
          ∈ [BuilderMethod.withTitle, BuilderMethod.closableCall,
            BuilderMethod.withSizeBound, BuilderMethod.withElements]
        ∧ BuilderMethod.closableCall
          ∉ [BuilderMethod.withTitle, BuilderMethod.closableCall,
            BuilderMethod.withSizeBound, BuilderMethod.withElements]))
    ∧ (BuilderTypeState.closable
        { title := .set, closable := .set, classFlag := .notSet, size := .set
          elements := .set, background := .notSet, theme := .notSet } = .set →
      BuilderTypeState.title
        { title := .set, closable := .set, classFlag := .notSet, size := .set
          elements := .set, background := .notSet, theme := .notSet } = .set
      ∧ BuilderMethod.withTitle
        ∈ [BuilderMethod.withTitle, BuilderMethod.closableCall,
          BuilderMethod.withSizeBound, BuilderMethod.withElements]) :=
  typestate_builder_safety
    [BuilderMethod.withTitle, BuilderMethod.closableCall,
      BuilderMethod.withSizeBound, BuilderMethod.withElements]
    { title := .set, closable := .set, classFlag := .notSet, size := .set
      elements := .set, background := .notSet, theme := .notSet }
    (by decide)

end Korangar
